import Mathlib

/-!
Verification model of the stdio JSON-RPC bridge in src/mcp-client.py.
-/

set_option maxHeartbeats 1000000
set_option maxRecDepth 40000

namespace MCPBridge

mutual
/-- JSON value model. Numbers are modeled as integers: the bridge's wire
format uses integer ids and none of the messages built by the program
contain fractional numbers. Arrays and objects use the mutual
spine types JsonArr and JsonObj so that all recursion is structural. -/
inductive Json where
  | null : Json
  | bool (b : Bool) : Json
  | num (n : Int) : Json
  | str (s : String) : Json
  | arr (xs : JsonArr) : Json
  | obj (fs : JsonObj) : Json
deriving DecidableEq

inductive JsonArr where
  | nil : JsonArr
  | cons (hd : Json) (tl : JsonArr) : JsonArr
deriving DecidableEq

inductive JsonObj where
  | nil : JsonObj
  | cons (key : String) (val : Json) (tl : JsonObj) : JsonObj
deriving DecidableEq
end

/-- Lowercase hex digit, as produced by Python json.dumps escapes. -/
def hexDigit (n : Nat) : Char :=
  if n < 10 then Char.ofNat (48 + n) else Char.ofNat (87 + n)

/-- Four lowercase hex digits, the XXXX of a JSON escape of the form backslash-uXXXX. -/
def hex4 (n : Nat) : List Char :=
  [hexDigit (n / 4096 % 16), hexDigit (n / 256 % 16), hexDigit (n / 16 % 16), hexDigit (n % 16)]

/-- Escape one character the way Python json.dumps (ensure_ascii=True,
its default, as called at src/mcp-client.py line 120) escapes it. -/
def escapeChar (c : Char) : List Char :=
  let n := c.toNat
  if c = '"' then ['\\', '"']
  else if c = '\\' then ['\\', '\\']
  else if n = 8 then ['\\', 'b']
  else if n = 9 then ['\\', 't']
  else if n = 10 then ['\\', 'n']
  else if n = 12 then ['\\', 'f']
  else if n = 13 then ['\\', 'r']
  else if n < 32 then '\\' :: 'u' :: hex4 n
  else if n < 127 then [c]
  else if n < 65536 then '\\' :: 'u' :: hex4 n
  else
    let m := n - 65536
    '\\' :: 'u' :: hex4 (55296 + m / 1024) ++ '\\' :: 'u' :: hex4 (56320 + m % 1024)

def escapeList : List Char → List Char
  | [] => []
  | c :: cs => escapeChar c ++ escapeList cs

/-- The JSON text of a string literal: quote, escaped body, quote. -/
def dumpStr (s : String) : List Char :=
  '"' :: escapeList s.data ++ ['"']

/-- Decimal digit character of a digit value below ten. -/
def digitChar (d : Nat) : Char := Char.ofNat (48 + d)

/-- Fuel-driven digit emitter: digits of n in most-significant-first order,
empty when n is zero. The fuel argument only forces structural recursion. -/
def natCharsAux : Nat → Nat → List Char
  | 0, _ => []
  | fuel + 1, n => if n = 0 then [] else natCharsAux fuel (n / 10) ++ [digitChar (n % 10)]

/-- Decimal digits of a natural number, most significant first,
as printed by Python repr of a nonnegative int. -/
def natChars (n : Nat) : List Char :=
  if n = 0 then ['0'] else natCharsAux n n

def intChars (i : Int) : List Char :=
  if i < 0 then '-' :: natChars i.natAbs else natChars i.natAbs

/-- The keyword of the JSON null literal. -/
def litNull : List Char := ['n', 'u', 'l', 'l']

/-- The keyword of the JSON true literal. -/
def litTrue : List Char := ['t', 'r', 'u', 'e']

/-- The keyword of the JSON false literal. -/
def litFalse : List Char := ['f', 'a', 'l', 's', 'e']

mutual
/-- Serialization of a JSON value exactly as Python json.dumps renders it
with default arguments: separators comma-space and colon-space, ensure_ascii
escapes, keys in insertion order. -/
def dumpVal : Json → List Char
  | .null => litNull
  | .bool true => litTrue
  | .bool false => litFalse
  | .num i => intChars i
  | .str s => dumpStr s
  | .arr .nil => ['[', ']']
  | .arr (.cons x tl) => '[' :: dumpVal x ++ dumpArr tl ++ [']']
  | .obj .nil => ['{', '}']
  | .obj (.cons k v tl) => '{' :: dumpStr k ++ ':' :: ' ' :: dumpVal v ++ dumpObj tl ++ ['}']

/-- Remaining array elements, each preceded by comma-space. -/
def dumpArr : JsonArr → List Char
  | .nil => []
  | .cons x tl => ',' :: ' ' :: dumpVal x ++ dumpArr tl

/-- Remaining object members, each preceded by comma-space. -/
def dumpObj : JsonObj → List Char
  | .nil => []
  | .cons k v tl => ',' :: ' ' :: dumpStr k ++ ':' :: ' ' :: dumpVal v ++ dumpObj tl
end

/-- json.dumps as a Lean String. -/
def jsonDumps (v : Json) : String := String.mk (dumpVal v)

/-! ## Parsing: model of Python json.loads on the fragment used by the bridge

The parser follows CPython's json.decoder: JSON whitespace is space, tab,
newline, carriage return; strings use the standard escapes with
backslash-u hex escapes and surrogate-pair combination; numbers follow the
grammar minus-sign, then zero or a nonzero-led digit run. Fractional or
exponent continuations (floats) and the NaN/Infinity literals are outside
the model, as are lone surrogates (Lean strings cannot hold them); the
bridge never produces either. Fuel arguments force structural recursion. -/

/-- JSON whitespace, the characters CPython's json module skips. -/
def isWsChar (c : Char) : Bool := c = ' ' || c = '\t' || c = '\n' || c = '\r'

def skipWs : List Char → List Char
  | [] => []
  | c :: cs => if isWsChar c then skipWs cs else c :: cs

def hexVal (c : Char) : Option Nat :=
  if 48 ≤ c.toNat ∧ c.toNat ≤ 57 then some (c.toNat - 48)
  else if 97 ≤ c.toNat ∧ c.toNat ≤ 102 then some (c.toNat - 87)
  else if 65 ≤ c.toNat ∧ c.toNat ≤ 70 then some (c.toNat - 55)
  else none

def parseHex4 : List Char → Option (Nat × List Char)
  | a :: b :: c :: d :: rest =>
    match hexVal a, hexVal b, hexVal c, hexVal d with
    | some x, some y, some z, some w => some (x * 4096 + y * 256 + z * 16 + w, rest)
    | _, _, _, _ => none
  | _ => none

/-- Single-character string escapes accepted after a backslash. -/
def escDecode (c : Char) : Option Char :=
  if c = '"' then some '"'
  else if c = '\\' then some '\\'
  else if c = '/' then some '/'
  else if c = 'b' then some (Char.ofNat 8)
  else if c = 'f' then some (Char.ofNat 12)
  else if c = 'n' then some '\n'
  else if c = 'r' then some (Char.ofNat 13)
  else if c = 't' then some '\t'
  else none

/-- Body of a JSON string after the opening quote: returns the decoded
characters and the input after the closing quote. -/
def parseStrAux : Nat → List Char → Option (List Char × List Char)
  | 0, _ => none
  | _ + 1, [] => none
  | fuel + 1, c :: cs =>
    if c = '"' then some ([], cs)
    else if c = '\\' then
      match cs with
      | [] => none
      | e :: cs2 =>
        if e = 'u' then
          match parseHex4 cs2 with
          | none => none
          | some (u1, cs3) =>
            if 55296 ≤ u1 ∧ u1 ≤ 56319 then
              match cs3 with
              | c3 :: c4 :: cs4 =>
                if c3 = '\\' ∧ c4 = 'u' then
                  match parseHex4 cs4 with
                  | none => none
                  | some (u2, cs5) =>
                    if 56320 ≤ u2 ∧ u2 ≤ 57343 then
                      match parseStrAux fuel cs5 with
                      | some (out, rest) =>
                        some (Char.ofNat (65536 + (u1 - 55296) * 1024 + (u2 - 56320)) :: out, rest)
                      | none => none
                    else none
                else none
              | _ => none
            else if 56320 ≤ u1 ∧ u1 ≤ 57343 then none
            else
              match parseStrAux fuel cs3 with
              | some (out, rest) => some (Char.ofNat u1 :: out, rest)
              | none => none
        else
          match escDecode e with
          | none => none
          | some d =>
            match parseStrAux fuel cs2 with
            | some (out, rest) => some (d :: out, rest)
            | none => none
    else if 32 ≤ c.toNat then
      match parseStrAux fuel cs with
      | some (out, rest) => some (c :: out, rest)
      | none => none
    else none

def isDigitChar (c : Char) : Bool := 48 ≤ c.toNat ∧ c.toNat ≤ 57

/-- Greedy run of decimal digits, returned as digit values. -/
def takeDigits : List Char → List Nat × List Char
  | [] => ([], [])
  | c :: cs =>
    if isDigitChar c then
      let p := takeDigits cs
      ((c.toNat - 48) :: p.1, p.2)
    else ([], c :: cs)

def numFromDigits (ds : List Nat) : Nat := ds.foldl (fun a d => 10 * a + d) 0

/-- Integer part of a JSON number: a single zero, or a nonzero digit
followed by a greedy digit run. -/
def parseIntPart : List Char → Option (Nat × List Char)
  | [] => none
  | c :: cs =>
    if c = '0' then some (0, cs)
    else if isDigitChar c then
      let p := takeDigits cs
      some (numFromDigits ((c.toNat - 48) :: p.1), p.2)
    else none

/-- True when the rest of the input does not continue the number as a
float; fractional and exponent forms are outside the model. -/
def numTerm : List Char → Bool
  | [] => true
  | c :: _ => !(c = '.' || c = 'e' || c = 'E')

def parseNum (cs : List Char) : Option (Int × List Char) :=
  match cs with
  | [] => none
  | c :: cs1 =>
    if c = '-' then
      match parseIntPart cs1 with
      | none => none
      | some (n, rest) => if numTerm rest then some (-(n : Int), rest) else none
    else
      match parseIntPart cs with
      | none => none
      | some (n, rest) => if numTerm rest then some ((n : Int), rest) else none

def headIs (cs : List Char) (t : Char) : Bool :=
  match cs with
  | [] => false
  | c :: _ => c = t

mutual
/-- One JSON value, preceded by optional whitespace. -/
def parseVal : Nat → List Char → Option (Json × List Char)
  | 0, _ => none
  | fuel + 1, cs0 =>
    match skipWs cs0 with
    | [] => none
    | c :: cs =>
      if c = 'n' then
        match cs with
        | c1 :: c2 :: c3 :: rest =>
          if c1 = 'u' ∧ c2 = 'l' ∧ c3 = 'l' then some (.null, rest) else none
        | _ => none
      else if c = 't' then
        match cs with
        | c1 :: c2 :: c3 :: rest =>
          if c1 = 'r' ∧ c2 = 'u' ∧ c3 = 'e' then some (.bool true, rest) else none
        | _ => none
      else if c = 'f' then
        match cs with
        | c1 :: c2 :: c3 :: c4 :: rest =>
          if c1 = 'a' ∧ c2 = 'l' ∧ c3 = 's' ∧ c4 = 'e' then some (.bool false, rest) else none
        | _ => none
      else if c = '"' then
        match parseStrAux (cs.length + 1) cs with
        | some (b, rest) => some (.str (String.mk b), rest)
        | none => none
      else if c = '[' then
        let cs2 := skipWs cs
        if headIs cs2 ']' then some (.arr .nil, cs2.tail)
        else
          match parseElems fuel cs2 with
          | some (xs, rest) => some (.arr xs, rest)
          | none => none
      else if c = '{' then
        let cs2 := skipWs cs
        if headIs cs2 '}' then some (.obj .nil, cs2.tail)
        else
          match parseFields fuel cs2 with
          | some (fs, rest) => some (.obj fs, rest)
          | none => none
      else
        match parseNum (c :: cs) with
        | some (i, rest) => some (.num i, rest)
        | none => none

/-- Nonempty comma-separated element list followed by a closing bracket. -/
def parseElems : Nat → List Char → Option (JsonArr × List Char)
  | 0, _ => none
  | fuel + 1, cs =>
    match parseVal fuel cs with
    | none => none
    | some (v, rest) =>
      match skipWs rest with
      | [] => none
      | c :: rest2 =>
        if c = ',' then
          match parseElems fuel rest2 with
          | some (tl, rest3) => some (.cons v tl, rest3)
          | none => none
        else if c = ']' then some (.cons v .nil, rest2)
        else none

/-- Nonempty comma-separated member list followed by a closing brace. -/
def parseFields : Nat → List Char → Option (JsonObj × List Char)
  | 0, _ => none
  | fuel + 1, cs =>
    match skipWs cs with
    | [] => none
    | c :: cs1 =>
      if c = '"' then
        match parseStrAux (cs1.length + 1) cs1 with
        | none => none
        | some (key, rest1) =>
          match skipWs rest1 with
          | [] => none
          | c2 :: rest2 =>
            if c2 = ':' then
              match parseVal fuel rest2 with
              | none => none
              | some (v, rest3) =>
                match skipWs rest3 with
                | [] => none
                | c3 :: rest4 =>
                  if c3 = ',' then
                    match parseFields fuel rest4 with
                    | some (tl, rest5) => some (.cons (String.mk key) v tl, rest5)
                    | none => none
                  else if c3 = '}' then some (.cons (String.mk key) v .nil, rest4)
                  else none
            else none
      else none
end

mutual
/-- Fuel sufficient for parseVal to parse the serialized form of a value. -/
def needFuel : Json → Nat
  | .null | .bool _ | .num _ | .str _ => 1
  | .arr .nil => 1
  | .arr (.cons x a) => 2 + needFuel x + needFuelA a
  | .obj .nil => 1
  | .obj (.cons _ v o) => 2 + needFuel v + needFuelO o

/-- Fuel for the remaining elements of an array spine. -/
def needFuelA : JsonArr → Nat
  | .nil => 0
  | .cons y t => 1 + needFuel y + needFuelA t

/-- Fuel for the remaining members of an object spine. -/
def needFuelO : JsonObj → Nat
  | .nil => 0
  | .cons _ v t => 1 + needFuel v + needFuelO t
end

/-- The input after a serialized number may not continue with a digit
(greedy digit run) nor with a fraction or exponent mark. Every context in
which the serializer emits a number is followed by a comma, a closing
bracket or brace, or nothing. -/
def numStop : List Char → Prop
  | [] => True
  | c :: _ => (c.toNat < 48 ∨ 57 < c.toNat) ∧ c ≠ '.' ∧ c ≠ 'e' ∧ c ≠ 'E'

/-- The rest of the input does not begin with a decimal digit. -/
def notDigitStart : List Char → Prop
  | [] => True
  | c :: _ => isDigitChar c = false

/-- json.loads on a character list: parse one value, then allow only
trailing whitespace. The fuel is sufficient for every well-formed value. -/
def jsonLoadsChars (cs : List Char) : Option Json :=
  match parseVal (cs.length + 1) cs with
  | some (v, rest) => if skipWs rest = [] then some v else none
  | none => none

/-- json.loads as called at src/mcp-client.py line 126. -/
def jsonLoads (s : String) : Option Json := jsonLoadsChars s.data

/-- Python str.strip() whitespace on the ASCII range. -/
def pyIsSpace (c : Char) : Bool :=
  c.toNat = 32 || (9 ≤ c.toNat && c.toNat ≤ 13)

def dropLeadWs : List Char → List Char
  | [] => []
  | c :: cs => if pyIsSpace c then dropLeadWs cs else c :: cs

/-- Python str.strip(): drop whitespace from both ends. -/
def pyStrip (l : List Char) : List Char :=
  ((dropLeadWs ((dropLeadWs l).reverse)).reverse)

/-- The bytes written for a message at src/mcp-client.py line 120:
json.dumps(request) + a newline. -/
def encodeMsg (v : Json) : String := String.mk (dumpVal v ++ ['\n'])

/-- The decode path at src/mcp-client.py line 126:
json.loads(line.strip()). -/
def decodeLine (s : String) : Option Json := jsonLoadsChars (pyStrip s.data)

/-! ## Field access on JSON objects -/

def JsonObj.find : JsonObj → String → Option Json
  | .nil, _ => none
  | .cons k v tl, key => if k = key then some v else JsonObj.find tl key

/-- Dictionary lookup: some value when j is an object with the key. -/
def getField (j : Json) (key : String) : Option Json :=
  match j with
  | .obj fs => fs.find key
  | _ => none

/-- response.get("result", default empty dict), as each endpoint does. -/
def getResultD (j : Json) : Json := (getField j "result").getD (.obj .nil)

/-! ## The MCPClient session model, transcribed from src/mcp-client.py

The child process handle carries what the session can observe of it: whether
its stdin pipe still accepts writes, the lines written to it so far, and the
scripted lines its stdout will deliver (readline on an exhausted script
returns the empty string, which is what asyncio readline returns at end of
stream). -/

structure ChildProc where
  stdinOpen : Bool
  stdinData : List String
  stdoutPending : List String
deriving DecidableEq

structure ClientState where
  process : Option ChildProc
  connected : Bool
deriving DecidableEq

/-- The exceptions send_request can raise: the explicit not-connected check
at line 115, a write/drain failure, and a json.loads failure (which also
covers end of stream, since loads of the empty string raises). -/
inductive SendError where
  | notConnected
  | writeFailed
  | malformed
deriving DecidableEq

def SendError.msg : SendError → String
  | .notConnected => "MCP server not connected"
  | .writeFailed => "WriteFailed"
  | .malformed => "Expecting value"

/-- MCPClient.send_request (lines 113-132): write json.dumps(request)+newline
to the child's stdin, read one line from its stdout, json.loads it; any
failure is logged and re-raised. Note no branch touches the connected flag
and no branch compares the response id with the request id. -/
def send_request (st : ClientState) (req : Json) : Except SendError Json × ClientState :=
  match st.process with
  | none => (.error .notConnected, st)
  | some p =>
    if p.stdinOpen then
      let p1 := { p with stdinData := p.stdinData ++ [encodeMsg req] }
      match p1.stdoutPending with
      | [] => (.error .malformed, { st with process := some p1 })
      | line :: rest =>
        let p2 := { p1 with stdoutPending := rest }
        match decodeLine line with
        | none => (.error .malformed, { st with process := some p2 })
        | some j => (.ok j, { st with process := some p2 })
    else (.error .writeFailed, st)

/-- The initialize handshake request built at lines 88-103. -/
def initRequest : Json :=
  .obj (.cons "jsonrpc" (.str "2.0")
    (.cons "id" (.num 1)
      (.cons "method" (.str "initialize")
        (.cons "params"
          (.obj (.cons "protocolVersion" (.str "2024-11-05")
            (.cons "capabilities"
              (.obj (.cons "roots" (.obj (.cons "listChanged" (.bool true) .nil))
                (.cons "sampling" (.obj .nil) .nil)))
              (.cons "clientInfo"
                (.obj (.cons "name" (.str "fastapi-mcp-bridge")
                  (.cons "version" (.str "1.0.0") .nil)))
                .nil))))
          .nil))))

/-- One named server entry of the mcpServers configuration mapping. -/
structure ServerEntry where
  command : Option String
  args : List String

inductive ConnectError where
  | noConfig
  | noCommand
  | spawnFailed
  | sendErr (e : SendError)
deriving DecidableEq

/-- MCPClient.connect (lines 60-111): pick the first configured server,
spawn it, send the initialize request through send_request, then set
connected. The handshake response value is dropped on the floor: no check
of its id and no check for an error member. On any raised exception the
error is logged and re-raised, and connected keeps its prior value; note
that after a successful spawn the process handle stays installed even when
the handshake exchange fails. spawnOk stands for whether
asyncio.create_subprocess_exec succeeds, childOut for the lines the spawned
child will write to stdout. -/
def connect (st : ClientState) (mcpServers : List (String × ServerEntry))
    (spawnOk : Bool) (childOut : List String) : Except ConnectError Unit × ClientState :=
  match mcpServers with
  | [] => (.error .noConfig, st)
  | (_, info) :: _ =>
    match info.command with
    | none => (.error .noCommand, st)
    | some cmd =>
      if cmd = "" then (.error .noCommand, st)
      else if spawnOk then
        let st1 := { st with process := some ⟨true, [], childOut⟩ }
        match send_request st1 initRequest with
        | (.ok _resp, st2) => (.ok (), { st2 with connected := true })
        | (.error e, st2) => (.error (.sendErr e), st2)
      else (.error .spawnFailed, st)

/-! ## The Bridge API endpoints (FastAPI routes, lines 157-233) -/

structure MCPResponse where
  success : Bool
  result : Option Json
  error : Option String
deriving DecidableEq

/-- What the try block of an endpoint can raise: an exception escaping
send_request, or the HTTPException(status_code=500) the endpoint itself
raises when the response carries an error member. fastapi.HTTPException
derives from Exception, so the endpoint's own catch-all except swallows it.
-/
inductive EndpointExc where
  | sendErr (e : SendError)
  | httpExc (status : Nat) (detail : Json)
deriving DecidableEq

/-- str(e) in the except handler (detail rendering approximated; no claim
inspects this text). -/
def excMsg : EndpointExc → String
  | .sendErr e => e.msg
  | .httpExc s d => toString s ++ ": " ++ jsonDumps d

/-- The common shape of the three endpoint bodies (lines 161-224): call
send_request inside try, raise HTTPException(500) when the response has an
error member, otherwise wrap response.get("result", empty dict). -/
def bridge_body (st : ClientState) (req : Json) : Except EndpointExc MCPResponse × ClientState :=
  match send_request st req with
  | (.error e, st1) => (.error (.sendErr e), st1)
  | (.ok resp, st1) =>
    match getField resp "error" with
    | some errv => (.error (.httpExc 500 errv), st1)
    | none => (.ok ⟨true, some (getResultD resp), none⟩, st1)

/-- The except-Exception handler wrapped around each endpoint body: any
raised exception, the endpoint's own HTTPException included, becomes a
normally returned MCPResponse with success=False, hence HTTP status 200.
The first component of the result is the HTTP status code. -/
def bridge_call (st : ClientState) (req : Json) : (Nat × MCPResponse) × ClientState :=
  match bridge_body st req with
  | (.ok r, st1) => ((200, r), st1)
  | (.error e, st1) => ((200, ⟨false, none, some (excMsg e)⟩), st1)

/-- The fixed request of GET /tools (lines 165-169): hard-coded id 2. -/
def toolsListRequest : Json :=
  .obj (.cons "jsonrpc" (.str "2.0")
    (.cons "id" (.num 2) (.cons "method" (.str "tools/list") .nil)))

/-- The fixed-id request of POST /tools/call (lines 185-193): id 3. -/
def callToolRequest (name : String) (args : Json) : Json :=
  .obj (.cons "jsonrpc" (.str "2.0")
    (.cons "id" (.num 3)
      (.cons "method" (.str "tools/call")
        (.cons "params"
          (.obj (.cons "name" (.str name) (.cons "arguments" args .nil))) .nil))))

/-- The fixed-id request of POST /mcp/request (lines 209-214): id 4, and
params-or-empty-dict. -/
def rawRequest (method : String) (params : Option Json) : Json :=
  .obj (.cons "jsonrpc" (.str "2.0")
    (.cons "id" (.num 4)
      (.cons "method" (.str method)
        (.cons "params" (params.getD (.obj .nil)) .nil))))

def list_tools (st : ClientState) : (Nat × MCPResponse) × ClientState :=
  bridge_call st toolsListRequest

def call_tool (st : ClientState) (name : String) (args : Json) :
    (Nat × MCPResponse) × ClientState :=
  bridge_call st (callToolRequest name args)

def send_mcp_request (st : ClientState) (method : String) (params : Option Json) :
    (Nat × MCPResponse) × ClientState :=
  bridge_call st (rawRequest method params)

structure HealthInfo where
  status : String
  mcp_connected : Bool
  config_loaded : Bool
deriving DecidableEq

/-- GET /health (lines 226-233). -/
def health_check (st : ClientState) (configLoaded : Bool) : HealthInfo :=
  ⟨"healthy", st.connected, configLoaded⟩

/-! ## Extracting the ids of the requests a session has sent -/

/-- The id member of each line written to the child's stdin, in order. -/
def writtenIds (st : ClientState) : List (Option Json) :=
  match st.process with
  | none => []
  | some p => p.stdinData.map fun l => (decodeLine l).bind (fun j => getField j "id")

/-! ## Two concurrent calls: interleaving model for the single-flight claim

A send_request execution has two suspension points, the stdin drain and the
stdout readline; asyncio can run another task at each. Splitting
send_request there gives each caller two atomic actions, write and read, on
the shared pipes; the child consumes request lines in order and answers
each with a response echoing its id. A schedule is the order in which the
two callers' actions and the child's steps run. -/

structure WireState where
  toChild : List String
  fromChild : List String
deriving DecidableEq

structure CallerState where
  req : Json
  wrote : Bool
  received : Option (Option Json)
deriving DecidableEq

structure SysState where
  wire : WireState
  callerA : CallerState
  callerB : CallerState
deriving DecidableEq

/-- The child's reply to one request line: a response with the same id. -/
def childRespond (line : String) : String :=
  match decodeLine line with
  | some req =>
    encodeMsg (.obj (.cons "jsonrpc" (.str "2.0")
      (.cons "id" ((getField req "id").getD .null) (.cons "result" .null .nil))))
  | none => encodeMsg .null

inductive CStep where
  | writeA
  | writeB
  | readA
  | readB
  | child

/-- One atomic step. A write appends the caller's encoded request to the
child's stdin; a read takes the next available stdout line and records the
json.loads result, exactly the two halves of send_request. -/
def stepSys (s : SysState) : CStep → SysState
  | .writeA =>
    if s.callerA.wrote then s
    else { s with wire := { s.wire with toChild := s.wire.toChild ++ [encodeMsg s.callerA.req] },
                  callerA := { s.callerA with wrote := true } }
  | .writeB =>
    if s.callerB.wrote then s
    else { s with wire := { s.wire with toChild := s.wire.toChild ++ [encodeMsg s.callerB.req] },
                  callerB := { s.callerB with wrote := true } }
  | .readA =>
    match s.wire.fromChild with
    | [] => s
    | line :: rest =>
      if s.callerA.wrote ∧ s.callerA.received = none then
        { s with wire := { s.wire with fromChild := rest },
                 callerA := { s.callerA with received := some (decodeLine line) } }
      else s
  | .readB =>
    match s.wire.fromChild with
    | [] => s
    | line :: rest =>
      if s.callerB.wrote ∧ s.callerB.received = none then
        { s with wire := { s.wire with fromChild := rest },
                 callerB := { s.callerB with received := some (decodeLine line) } }
      else s
  | .child =>
    match s.wire.toChild with
    | [] => s
    | line :: rest =>
      { s with wire := { toChild := rest, fromChild := s.wire.fromChild ++ [childRespond line] } }

def runSys (s : SysState) (sched : List CStep) : SysState := sched.foldl stepSys s

def initSys (ra rb : Json) : SysState :=
  ⟨⟨[], []⟩, ⟨ra, false, none⟩, ⟨rb, false, none⟩⟩

/-- The response the modeled child sends back for a request. -/
def echoResp (req : Json) : Json :=
  .obj (.cons "jsonrpc" (.str "2.0")
    (.cons "id" ((getField req "id").getD .null) (.cons "result" .null .nil)))

/-! ## Concrete demo session used by the id-sequence claim -/

/-- A successful connect followed by two GET /tools calls against a child
that answers every request. -/
def demoServers : List (String × ServerEntry) := [("demo", ⟨some "demo-server", []⟩)]

def demoChildOut : List String :=
  [encodeMsg (echoResp initRequest), encodeMsg (echoResp toolsListRequest),
   encodeMsg (echoResp toolsListRequest)]

def demoAfterConnect : ClientState :=
  (connect ⟨none, false⟩ demoServers true demoChildOut).2

def demoAfterTwoListTools : ClientState :=
  (list_tools (list_tools demoAfterConnect).2).2

/-! ## Concrete fixtures exercising the failure paths -/

/-- A generic request carrying a given id, as a child-side test fixture. -/
def reqWithId (n : Int) : Json :=
  .obj (.cons "jsonrpc" (.str "2.0")
    (.cons "id" (.num n) (.cons "method" (.str "demo/echo") .nil)))

/-- A success response carrying a given id. -/
def respWithId (n : Int) : Json :=
  .obj (.cons "jsonrpc" (.str "2.0")
    (.cons "id" (.num n) (.cons "result" .null .nil)))

/-- A connected session whose child will answer the next request with a
response whose id is 99. -/
def mismatchState : ClientState := ⟨some ⟨true, [], [encodeMsg (respWithId 99)]⟩, true⟩

/-- An error response to the initialize request (same id, error member). -/
def errorResp : Json :=
  .obj (.cons "jsonrpc" (.str "2.0") (.cons "id" (.num 1)
    (.cons "error" (.obj (.cons "code" (.num (-32600))
      (.cons "message" (.str "bad request") .nil))) .nil)))

def errorRespLine : String := encodeMsg errorResp

/-- A connected session whose child has exited: the next readline returns
end of stream. -/
def eofState : ClientState := ⟨some ⟨true, [], []⟩, true⟩

/-- A connected session whose child's stdin pipe is closed: the next write
fails. -/
def closedPipeState : ClientState := ⟨some ⟨false, [], []⟩, true⟩

/-- A connected session whose child will answer the next request with a
JSON-RPC error response. -/
def remoteErrState : ClientState :=
  ⟨some ⟨true, [], [encodeMsg (.obj (.cons "jsonrpc" (.str "2.0") (.cons "id" (.num 2)
    (.cons "error" (.obj (.cons "code" (.num (-32601))
      (.cons "message" (.str "Method not found") .nil))) .nil))))]⟩, true⟩

/-- A connected session whose child will answer with a line that is not
JSON. -/
def malformedState : ClientState := ⟨some ⟨true, [], ["oops\n"]⟩, true⟩

example : jsonDumps (.arr (.cons .null (.cons (.bool true) .nil))) = "[null, true]" := rfl
example : jsonDumps (.obj (.cons "a" (.num 12) (.cons "b" (.str "x") .nil)))
    = "\x7b\"a\": 12, \"b\": \"x\"\x7d" := rfl
example : jsonDumps (.num (-107)) = "-107" := rfl
example : jsonDumps (.str "é\n") = "\"\\u00e9\\n\"" := rfl
example : jsonDumps (.str "𝄞") = "\"\\ud834\\udd1e\"" := rfl

example : decodeLine (encodeMsg (.obj (.cons "id" (.num 42) (.cons "p" (.arr (.cons (.str "αβ\n") (.cons (.num (-3)) .nil))) .nil))))
    = some (.obj (.cons "id" (.num 42) (.cons "p" (.arr (.cons (.str "αβ\n") (.cons (.num (-3)) .nil))) .nil))) := rfl
example : jsonLoads "\x7b\"id\": 99, \"result\": null\x7d" = some (.obj (.cons "id" (.num 99) (.cons "result" .null .nil))) := rfl
example : jsonLoads "" = none := rfl
example : jsonLoads "not json" = none := rfl
example : jsonLoads " [1, 2] " = some (.arr (.cons (.num 1) (.cons (.num 2) .nil))) := rfl
example : jsonLoads "\"\\ud834\\udd1e\"" = some (.str "𝄞") := rfl
example : jsonLoads "1.5" = none := rfl

/-! ## Character arithmetic helpers -/

theorem charEq (c d : Char) (h : c.toNat = d.toNat) : c = d := by
  apply Char.ext
  apply UInt32.ext
  exact h

theorem charNe (c d : Char) (h : c.toNat ≠ d.toNat) : c ≠ d :=
  fun e => h (congrArg Char.toNat e)

theorem toNat_ofNat_valid (n : Nat) (h : n.isValidChar) : (Char.ofNat n).toNat = n := by
  simp only [Char.ofNat, dif_pos h]
  rfl

theorem toNat_ofNat_small (n : Nat) (h : n < 55296) : (Char.ofNat n).toNat = n :=
  toNat_ofNat_valid n (Or.inl h)

theorem charValidRange (c : Char) : c.toNat < 55296 ∨ (57343 < c.toNat ∧ c.toNat < 1114112) := by
  have h := c.valid
  simp only [UInt32.isValidChar, Nat.isValidChar] at h
  exact h

/-! ## Whitespace skipping -/

theorem isWsChar_eq_false (c : Char) (h : c.toNat ≠ 32 ∧ c.toNat ≠ 9 ∧ c.toNat ≠ 10 ∧ c.toNat ≠ 13) :
    isWsChar c = false := by
  simp only [isWsChar, Bool.or_eq_false_iff, decide_eq_false_iff_not]
  exact ⟨⟨⟨charNe c ' ' h.1, charNe c '\t' h.2.1⟩, charNe c '\n' h.2.2.1⟩, charNe c '\r' h.2.2.2⟩

theorem skipWs_cons (c : Char) (l : List Char) (h : isWsChar c = false) :
    skipWs (c :: l) = c :: l := by
  simp [skipWs, h]

theorem skipWs_cons_ws (c : Char) (l : List Char) (h : isWsChar c = true) :
    skipWs (c :: l) = skipWs l := by
  simp [skipWs, h]

/-! ## Hex digits -/

theorem hexVal_hexDigit (d : Nat) (h : d < 16) : hexVal (hexDigit d) = some d := by
  interval_cases d <;> rfl

theorem parseHex4_hex4 (n : Nat) (h : n < 65536) (rest : List Char) :
    parseHex4 (hex4 n ++ rest) = some (n, rest) := by
  have h1 : n / 4096 % 16 < 16 := Nat.mod_lt _ (by omega)
  have h2 : n / 256 % 16 < 16 := Nat.mod_lt _ (by omega)
  have h3 : n / 16 % 16 < 16 := Nat.mod_lt _ (by omega)
  have h4 : n % 16 < 16 := Nat.mod_lt _ (by omega)
  simp only [hex4, List.cons_append, List.nil_append, parseHex4,
    hexVal_hexDigit _ h1, hexVal_hexDigit _ h2, hexVal_hexDigit _ h3, hexVal_hexDigit _ h4]
  congr 2
  omega

/-! ## String body round trip -/

theorem escapeList_append (a b : List Char) :
    escapeList (a ++ b) = escapeList a ++ escapeList b := by
  induction a with
  | nil => rfl
  | cons c t ih => simp [escapeList, ih]

theorem escapeList_length (l : List Char) : l.length ≤ (escapeList l).length := by
  induction l with
  | nil => simp [escapeList]
  | cons c t ih =>
    have h : 1 ≤ (escapeChar c).length := by
      simp only [escapeChar]
      split_ifs <;> simp
    simp only [escapeList, List.length_append, List.length_cons]
    omega

theorem parseStrAux_escape (l : List Char) : ∀ (fuel : Nat) (rest : List Char),
    l.length < fuel → parseStrAux fuel (escapeList l ++ '"' :: rest) = some (l, rest) := by
  induction l with
  | nil =>
    intro fuel rest h
    cases fuel with
    | zero => omega
    | succ f => simp [escapeList, parseStrAux]
  | cons c t ih =>
    intro fuel rest h
    cases fuel with
    | zero => omega
    | succ f =>
    have ht : t.length < f := by simp at h; omega
    have iht := ih f rest ht
    simp only [escapeList, escapeChar]
    split_ifs with h1 h2 h3 h4 h5 h6 h7 h8 h9 h10
    · subst h1
      simp only [List.cons_append, List.append_assoc, parseStrAux]
      simp [escDecode, iht]
    · subst h2
      simp only [List.cons_append, List.append_assoc, parseStrAux]
      simp [escDecode, iht]
    · have hc : c = Char.ofNat 8 := charEq c _ (by rw [toNat_ofNat_small 8 (by omega)]; omega)
      simp only [List.cons_append, List.append_assoc, parseStrAux]
      simp [escDecode, iht, hc]
    · have hc : c = '\t' := charEq c _ (by rw [show ('\t').toNat = 9 from rfl]; omega)
      simp only [List.cons_append, List.append_assoc, parseStrAux]
      simp [escDecode, iht, hc]
    · have hc : c = '\n' := charEq c _ (by rw [show ('\n').toNat = 10 from rfl]; omega)
      simp only [List.cons_append, List.append_assoc, parseStrAux]
      simp [escDecode, iht, hc]
    · have hc : c = Char.ofNat 12 := charEq c _ (by rw [toNat_ofNat_small 12 (by omega)]; omega)
      simp only [List.cons_append, List.append_assoc, parseStrAux]
      simp [escDecode, iht, hc]
    · have hc : c = Char.ofNat 13 := charEq c _ (by rw [toNat_ofNat_small 13 (by omega)]; omega)
      simp only [List.cons_append, List.append_assoc, parseStrAux]
      simp [escDecode, iht, hc]
    · -- control characters below 32 escape to backslash-u
      have hc : Char.ofNat c.toNat = c := charEq _ c (toNat_ofNat_small _ (by omega))
      simp only [List.cons_append, List.append_assoc, List.append_eq, parseStrAux]
      simp [parseHex4_hex4 c.toNat (by omega), iht, hc,
        show ¬(55296 ≤ c.toNat ∧ c.toNat ≤ 56319) by omega,
        show ¬(56320 ≤ c.toNat ∧ c.toNat ≤ 57343) by omega]
    · -- printable ASCII passes through raw
      simp only [List.cons_append, parseStrAux]
      simp [h1, h2, show (32 : Nat) ≤ c.toNat by omega, iht]
    · -- basic-plane non-ASCII escapes to backslash-u
      have hval : c.toNat < 55296 ∨ (57343 < c.toNat ∧ c.toNat < 1114112) := charValidRange c
      have hc : Char.ofNat c.toNat = c := charEq _ c (toNat_ofNat_valid _ (by
        rcases hval with hv | hv
        · exact Or.inl hv
        · exact Or.inr ⟨by omega, by omega⟩))
      simp only [List.cons_append, List.append_assoc, List.append_eq, parseStrAux]
      simp [parseHex4_hex4 c.toNat (by omega), iht, hc,
        show ¬(55296 ≤ c.toNat ∧ c.toNat ≤ 56319) by rcases hval with hv | hv <;> omega,
        show ¬(56320 ≤ c.toNat ∧ c.toNat ≤ 57343) by rcases hval with hv | hv <;> omega]
    · -- astral plane: surrogate pair
      have hval : c.toNat < 55296 ∨ (57343 < c.toNat ∧ c.toNat < 1114112) := charValidRange c
      have hm : c.toNat - 65536 < 1048576 := by rcases hval with hv | hv <;> omega
      have hhi : (c.toNat - 65536) / 1024 < 1024 := by omega
      have hchar : Char.ofNat (65536 + (c.toNat - 65536) / 1024 * 1024 +
          (c.toNat - 65536) % 1024) = c := by
        have harg : 65536 + (c.toNat - 65536) / 1024 * 1024 +
            (c.toNat - 65536) % 1024 = c.toNat := by
          have hdm := Nat.div_add_mod (c.toNat - 65536) 1024
          omega
        rw [harg]
        exact charEq _ c (toNat_ofNat_valid _ (Or.inr ⟨by omega, by rcases hval with hv | hv <;> omega⟩))
      simp only [List.cons_append, List.append_assoc, List.append_eq]
      rw [parseStrAux]
      simp [parseHex4_hex4 (55296 + (c.toNat - 65536) / 1024) (by omega),
        parseHex4_hex4 (56320 + (c.toNat - 65536) % 1024) (by omega),
        show 55296 ≤ 55296 + (c.toNat - 65536) / 1024 ∧
          55296 + (c.toNat - 65536) / 1024 ≤ 56319 by omega,
        show 56320 ≤ 56320 + (c.toNat - 65536) % 1024 ∧
          56320 + (c.toNat - 65536) % 1024 ≤ 57343 by omega,
        iht, hchar]

/-! ## Number round trip -/

theorem numStop_notDigit (rest : List Char) (h : numStop rest) : notDigitStart rest := by
  cases rest with
  | nil => trivial
  | cons c t =>
    obtain ⟨hd, _⟩ := h
    simp only [notDigitStart, isDigitChar]
    simp only [decide_eq_false_iff_not]
    omega

theorem numStop_numTerm (rest : List Char) (h : numStop rest) : numTerm rest = true := by
  cases rest with
  | nil => rfl
  | cons c t =>
    obtain ⟨_, h1, h2, h3⟩ := h
    simp [numTerm, h1, h2, h3]

theorem digitChar_toNat (d : Nat) (h : d < 10) : (digitChar d).toNat = 48 + d :=
  toNat_ofNat_small _ (by omega)

theorem isDigitChar_digitChar (d : Nat) (h : d < 10) : isDigitChar (digitChar d) = true := by
  simp only [isDigitChar, digitChar_toNat d h, decide_eq_true_eq]
  omega

theorem natCharsAux_eq_digits (fuel : Nat) : ∀ (n : Nat), n ≤ fuel →
    natCharsAux fuel n = (Nat.digits 10 n).reverse.map digitChar := by
  induction fuel with
  | zero =>
    intro n h
    obtain rfl : n = 0 := by omega
    simp [natCharsAux]
  | succ f ih =>
    intro n h
    by_cases hn : n = 0
    · subst hn
      simp [natCharsAux]
    · have hdiv : n / 10 ≤ f := by
        have := Nat.div_lt_self (Nat.pos_of_ne_zero hn) (by omega : 1 < 10)
        omega
      rw [show natCharsAux (f + 1) n = natCharsAux f (n / 10) ++ [digitChar (n % 10)] by
        simp [natCharsAux, hn]]
      rw [ih (n / 10) hdiv, Nat.digits_def' (by omega : 1 < 10) (Nat.pos_of_ne_zero hn)]
      simp

theorem numFromDigits_reverse (L : List Nat) :
    numFromDigits L.reverse = Nat.ofDigits 10 L := by
  induction L with
  | nil => rfl
  | cons d t ih =>
    have hfold : ∀ (l : List Nat) (a d0 : Nat),
        List.foldl (fun a d => 10 * a + d) a (l ++ [d0]) =
          10 * List.foldl (fun a d => 10 * a + d) a l + d0 := by
      intro l a d0
      rw [List.foldl_append]
      rfl
    simp only [List.reverse_cons, numFromDigits] at *
    rw [hfold, ih, Nat.ofDigits_cons]
    ring

theorem natChars_spec (n : Nat) : ∃ d0 ds, natChars n = (d0 :: ds).map digitChar ∧
    (∀ d ∈ d0 :: ds, d < 10) ∧ (n ≠ 0 → d0 ≠ 0) ∧ numFromDigits (d0 :: ds) = n := by
  by_cases hn : n = 0
  · subst hn
    exact ⟨0, [], rfl, by simp, by simp, rfl⟩
  · have hD : Nat.digits 10 n ≠ [] := Nat.digits_ne_nil_iff_ne_zero.mpr hn
    have hrev : (Nat.digits 10 n).reverse ≠ [] := by simpa using hD
    obtain ⟨d0, ds, hcons⟩ := List.exists_cons_of_ne_nil hrev
    have hmem : ∀ d ∈ d0 :: ds, d < 10 := by
      intro d hd
      apply Nat.digits_lt_base (by omega : 1 < 10)
      rw [← List.mem_reverse, hcons]
      exact hd
    have hlast : d0 ≠ 0 := by
      have h1 : (Nat.digits 10 n).getLast? = some d0 := by
        rw [← List.head?_reverse, hcons]
        rfl
      have h2 := Nat.getLast_digit_ne_zero (b := 10) hn
      have h4 : d0 = (Nat.digits 10 n).getLast (Nat.digits_ne_nil_iff_ne_zero.mpr hn) := by
        have h3 := List.getLast?_eq_getLast (Nat.digits 10 n) (Nat.digits_ne_nil_iff_ne_zero.mpr hn)
        rw [h3] at h1
        exact (Option.some_inj.mp h1).symm
      rw [h4]
      exact h2
    refine ⟨d0, ds, ?_, hmem, fun _ => hlast, ?_⟩
    · rw [natChars, if_neg hn, natCharsAux_eq_digits n n le_rfl, hcons]
    · rw [← hcons, numFromDigits_reverse, Nat.ofDigits_digits]

theorem takeDigits_map (ds : List Nat) : ∀ (rest : List Char), (∀ d ∈ ds, d < 10) →
    notDigitStart rest → takeDigits (ds.map digitChar ++ rest) = (ds, rest) := by
  induction ds with
  | nil =>
    intro rest _ hrest
    cases rest with
    | nil => rfl
    | cons c t =>
      simp only [notDigitStart] at hrest
      simp [takeDigits, hrest]
  | cons d t ih =>
    intro rest hds hrest
    have hd : d < 10 := hds d (by simp)
    have ht : ∀ x ∈ t, x < 10 := fun x hx => hds x (by simp [hx])
    simp only [List.map_cons, List.cons_append, takeDigits, isDigitChar_digitChar d hd,
      if_pos rfl, digitChar_toNat d hd]
    simp [ih rest ht hrest]

theorem parseIntPart_natChars (n : Nat) (rest : List Char) (hrest : notDigitStart rest) :
    parseIntPart (natChars n ++ rest) = some (n, rest) := by
  obtain ⟨d0, ds, hform, hlt, hnz, hval⟩ := natChars_spec n
  by_cases hn : n = 0
  · subst hn
    have h0 : natChars 0 = ['0'] := rfl
    rw [h0]
    simp [parseIntPart]
  · have hd0 : d0 < 10 := hlt d0 (by simp)
    have hne : ¬digitChar d0 = '0' := by
      apply charNe
      rw [digitChar_toNat d0 hd0]
      have := hnz hn
      rw [show ('0').toNat = 48 from rfl]
      omega
    rw [hform]
    simp only [List.map_cons, List.cons_append, parseIntPart, if_neg hne,
      isDigitChar_digitChar d0 hd0, if_pos rfl,
      takeDigits_map ds rest (fun x hx => hlt x (by simp [hx])) hrest]
    rw [digitChar_toNat d0 hd0]
    simp only [Nat.add_sub_cancel_left]
    rw [hval]
    simp

theorem natChars_head (n : Nat) : ∃ c t, natChars n = c :: t ∧ 48 ≤ c.toNat ∧ c.toNat ≤ 57 := by
  obtain ⟨d0, ds, hform, hlt, _, _⟩ := natChars_spec n
  have hd0 : d0 < 10 := hlt d0 (by simp)
  exact ⟨digitChar d0, ds.map digitChar, by simpa using hform,
    by rw [digitChar_toNat d0 hd0]; omega, by rw [digitChar_toNat d0 hd0]; omega⟩

theorem intChars_head (i : Int) :
    ∃ c t, intChars i = c :: t ∧ (c.toNat = 45 ∨ (48 ≤ c.toNat ∧ c.toNat ≤ 57)) := by
  by_cases hi : i < 0
  · exact ⟨'-', natChars i.natAbs, by simp [intChars, hi], Or.inl rfl⟩
  · obtain ⟨c, t, hct, h1, h2⟩ := natChars_head i.natAbs
    exact ⟨c, t, by simp [intChars, hi, hct], Or.inr ⟨h1, h2⟩⟩

theorem parseNum_intChars (i : Int) (rest : List Char) (hstop : numStop rest) :
    parseNum (intChars i ++ rest) = some (i, rest) := by
  have hterm := numStop_numTerm rest hstop
  have hnd := numStop_notDigit rest hstop
  by_cases hi : i < 0
  · have habs : i.natAbs ≠ 0 := by omega
    rw [show intChars i = '-' :: natChars i.natAbs by simp [intChars, hi]]
    simp only [List.cons_append, parseNum, if_pos rfl,
      parseIntPart_natChars i.natAbs rest hnd, hterm, if_pos rfl]
    rw [show -((i.natAbs : Nat) : Int) = i by omega]
    simp
  · obtain ⟨c, t, hct, h1, h2⟩ := natChars_head i.natAbs
    have hform : intChars i = natChars i.natAbs := by simp [intChars, hi]
    have hcons : intChars i ++ rest = c :: (t ++ rest) := by
      rw [hform, hct]
      rfl
    rw [hcons]
    have hne : ¬c = '-' := by
      apply charNe
      rw [show ('-').toNat = 45 from rfl]
      omega
    simp only [parseNum, if_neg hne]
    rw [show c :: (t ++ rest) = natChars i.natAbs ++ rest by rw [hct]; rfl]
    simp only [parseIntPart_natChars i.natAbs rest hnd, hterm, if_pos rfl]
    rw [show (((i.natAbs : Nat)) : Int) = i by omega]
    simp

/-! ## Head characters of serialized values -/

theorem dumpVal_head (v : Json) : ∃ c t, dumpVal v = c :: t ∧
    (c.toNat = 110 ∨ c.toNat = 116 ∨ c.toNat = 102 ∨ c.toNat = 45 ∨
     (48 ≤ c.toNat ∧ c.toNat ≤ 57) ∨ c.toNat = 34 ∨ c.toNat = 91 ∨ c.toNat = 123) := by
  cases v with
  | null => exact ⟨'n', _, rfl, by decide⟩
  | bool b => cases b with
    | true => exact ⟨'t', _, rfl, by decide⟩
    | false => exact ⟨'f', _, rfl, by decide⟩
  | num i =>
    obtain ⟨c, t, hct, hc⟩ := intChars_head i
    exact ⟨c, t, hct, by rcases hc with h | h <;> omega⟩
  | str s => exact ⟨'"', _, rfl, by decide⟩
  | arr a => cases a with
    | nil => exact ⟨'[', _, rfl, by decide⟩
    | cons x tl => exact ⟨'[', _, rfl, by decide⟩
  | obj o => cases o with
    | nil => exact ⟨'{', _, rfl, by decide⟩
    | cons k v tl => exact ⟨'{', _, rfl, by decide⟩

theorem skipWs_dumpVal (v : Json) (r : List Char) :
    skipWs (dumpVal v ++ r) = dumpVal v ++ r := by
  obtain ⟨c, t, hct, hc⟩ := dumpVal_head v
  rw [hct, List.cons_append]
  exact skipWs_cons c _ (isWsChar_eq_false c (by rcases hc with h|h|h|h|h|h|h|h <;> omega))

theorem headIs_dumpVal_rb (v : Json) (r : List Char) :
    headIs (dumpVal v ++ r) ']' = false := by
  obtain ⟨c, t, hct, hc⟩ := dumpVal_head v
  rw [hct, List.cons_append]
  simp only [headIs, decide_eq_false_iff_not]
  exact charNe c ']' (by rw [show (']').toNat = 93 from rfl]; rcases hc with h|h|h|h|h|h|h|h <;> omega)

theorem headIs_dumpVal_rc (v : Json) (r : List Char) :
    headIs (dumpVal v ++ r) '}' = false := by
  obtain ⟨c, t, hct, hc⟩ := dumpVal_head v
  rw [hct, List.cons_append]
  simp only [headIs, decide_eq_false_iff_not]
  exact charNe c '}' (by rw [show ('}').toNat = 125 from rfl]; rcases hc with h|h|h|h|h|h|h|h <;> omega)

theorem numStop_comma (t : List Char) : numStop (',' :: t) :=
  ⟨by decide, by decide, by decide, by decide⟩

theorem numStop_rbracket (t : List Char) : numStop (']' :: t) :=
  ⟨by decide, by decide, by decide, by decide⟩

theorem numStop_rbrace (t : List Char) : numStop ('}' :: t) :=
  ⟨by decide, by decide, by decide, by decide⟩

theorem numStop_arrTail (a : JsonArr) (rest : List Char) :
    numStop (dumpArr a ++ ']' :: rest) := by
  cases a with
  | nil => exact numStop_rbracket rest
  | cons y t =>
    rw [dumpArr]
    exact numStop_comma _

theorem numStop_objTail (o : JsonObj) (rest : List Char) :
    numStop (dumpObj o ++ '}' :: rest) := by
  cases o with
  | nil => exact numStop_rbrace rest
  | cons k v t =>
    rw [dumpObj]
    exact numStop_comma _

/-! ## Leading-space absorption at the parser entry points -/

theorem parseVal_ws (fuel : Nat) (cs : List Char) :
    parseVal fuel (' ' :: cs) = parseVal fuel cs := by
  cases fuel with
  | zero => rfl
  | succ f =>
    rw [parseVal, parseVal, skipWs_cons_ws ' ' cs (by decide)]

theorem parseElems_ws (fuel : Nat) (cs : List Char) :
    parseElems fuel (' ' :: cs) = parseElems fuel cs := by
  cases fuel with
  | zero => rfl
  | succ f =>
    rw [parseElems, parseElems, parseVal_ws]

theorem parseFields_ws (fuel : Nat) (cs : List Char) :
    parseFields fuel (' ' :: cs) = parseFields fuel cs := by
  cases fuel with
  | zero => rfl
  | succ f =>
    rw [parseFields, parseFields, skipWs_cons_ws ' ' cs (by decide)]

theorem needFuel_pos (v : Json) : 1 ≤ needFuel v := by
  cases v with
  | arr a => cases a <;> (simp only [needFuel]; omega)
  | obj o => cases o <;> (simp only [needFuel]; omega)
  | null => simp [needFuel]
  | bool b => simp [needFuel]
  | num i => simp [needFuel]
  | str s => simp [needFuel]

/-! ## The round trip: parseVal inverts dumpVal -/

theorem rtAll (fuel : Nat) :
    (∀ (v : Json) (rest : List Char), needFuel v ≤ fuel → numStop rest →
      parseVal fuel (dumpVal v ++ rest) = some (v, rest)) ∧
    (∀ (x : Json) (a : JsonArr) (rest : List Char),
      needFuel x + needFuelA a + 1 ≤ fuel →
      parseElems fuel (dumpVal x ++ (dumpArr a ++ ']' :: rest)) = some (.cons x a, rest)) ∧
    (∀ (k : String) (v : Json) (o : JsonObj) (rest : List Char),
      needFuel v + needFuelO o + 1 ≤ fuel →
      parseFields fuel (dumpStr k ++ ':' :: ' ' :: (dumpVal v ++ (dumpObj o ++ '}' :: rest))) =
        some (.cons k v o, rest)) := by
  induction fuel with
  | zero =>
    refine ⟨?_, ?_, ?_⟩
    · intro v rest hf _
      have := needFuel_pos v
      omega
    · intro x a rest hb
      omega
    · intro k v o rest hb
      omega
  | succ f ih =>
    obtain ⟨ih1, ih2, ih3⟩ := ih
    refine ⟨?_, ?_, ?_⟩
    · intro v rest hf hstop
      cases v with
      | null => simp [dumpVal, parseVal, skipWs, isWsChar]
      | bool b => cases b <;> simp [dumpVal, parseVal, skipWs, isWsChar]
      | num i =>
        obtain ⟨c, t, hct, hc⟩ := intChars_head i
        have hws : isWsChar c = false :=
          isWsChar_eq_false c (by rcases hc with h | h <;> omega)
        have h1 : ¬c = 'n' :=
          charNe c 'n' (by rw [show ('n').toNat = 110 from rfl]; rcases hc with h | h <;> omega)
        have h2 : ¬c = 't' :=
          charNe c 't' (by rw [show ('t').toNat = 116 from rfl]; rcases hc with h | h <;> omega)
        have h3 : ¬c = 'f' :=
          charNe c 'f' (by rw [show ('f').toNat = 102 from rfl]; rcases hc with h | h <;> omega)
        have h4 : ¬c = '"' :=
          charNe c '"' (by rw [show ('"').toNat = 34 from rfl]; rcases hc with h | h <;> omega)
        have h5 : ¬c = '[' :=
          charNe c '[' (by rw [show ('[').toNat = 91 from rfl]; rcases hc with h | h <;> omega)
        have h6 : ¬c = '{' :=
          charNe c '{' (by rw [show ('{').toNat = 123 from rfl]; rcases hc with h | h <;> omega)
        have hcons : dumpVal (.num i) ++ rest = c :: (t ++ rest) := by
          rw [show dumpVal (.num i) = intChars i from rfl, hct, List.cons_append]
        rw [hcons, parseVal, skipWs_cons c _ hws]
        simp only [if_neg h1, if_neg h2, if_neg h3, if_neg h4, if_neg h5, if_neg h6]
        rw [show c :: (t ++ rest) = intChars i ++ rest by rw [hct, List.cons_append]]
        rw [parseNum_intChars i rest hstop]
      | str s =>
        obtain ⟨l⟩ := s
        have hlen : l.length < (escapeList l ++ '"' :: rest).length + 1 := by
          have := escapeList_length l
          simp only [List.length_append, List.length_cons]
          omega
        have hdump : dumpVal (.str (String.mk l)) ++ rest =
            '"' :: (escapeList l ++ '"' :: rest) := by
          simp [dumpVal, dumpStr]
        rw [hdump, parseVal, skipWs_cons '"' _ (by decide)]
        simp only [if_neg (by decide : ¬('"' : Char) = 'n'), if_neg (by decide : ¬('"' : Char) = 't'),
          if_neg (by decide : ¬('"' : Char) = 'f'), if_pos rfl]
        rw [parseStrAux_escape l ((escapeList l ++ '"' :: rest).length + 1) rest hlen]
        simp
      | arr a =>
        cases a with
        | nil => simp [dumpVal, parseVal, skipWs, isWsChar, headIs]
        | cons x a2 =>
          have hN : needFuel (.arr (.cons x a2)) = 2 + needFuel x + needFuelA a2 := rfl
          have hb : needFuel x + needFuelA a2 + 1 ≤ f := by rw [hN] at hf; omega
          have hdump : dumpVal (.arr (.cons x a2)) ++ rest =
              '[' :: (dumpVal x ++ (dumpArr a2 ++ ']' :: rest)) := by
            simp [dumpVal]
          rw [hdump, parseVal, skipWs_cons '[' _ (by decide)]
          simp only [if_neg (by decide : ¬('[' : Char) = 'n'),
            if_neg (by decide : ¬('[' : Char) = 't'), if_neg (by decide : ¬('[' : Char) = 'f'),
            if_neg (by decide : ¬('[' : Char) = '"'), if_pos rfl]
          rw [skipWs_dumpVal x (dumpArr a2 ++ ']' :: rest), headIs_dumpVal_rb x _]
          simp only [Bool.false_eq_true, if_neg (by simp : ¬False)]
          rw [ih2 x a2 rest hb]
          simp
      | obj o =>
        cases o with
        | nil => simp [dumpVal, parseVal, skipWs, isWsChar, headIs]
        | cons k v2 o2 =>
          have hN : needFuel (.obj (.cons k v2 o2)) = 2 + needFuel v2 + needFuelO o2 := rfl
          have hb : needFuel v2 + needFuelO o2 + 1 ≤ f := by rw [hN] at hf; omega
          have hdump : dumpVal (.obj (.cons k v2 o2)) ++ rest =
              '{' :: (dumpStr k ++ ':' :: ' ' :: (dumpVal v2 ++ (dumpObj o2 ++ '}' :: rest))) := by
            simp [dumpVal]
          rw [hdump, parseVal, skipWs_cons '{' _ (by decide)]
          simp only [if_neg (by decide : ¬('{' : Char) = 'n'),
            if_neg (by decide : ¬('{' : Char) = 't'), if_neg (by decide : ¬('{' : Char) = 'f'),
            if_neg (by decide : ¬('{' : Char) = '"'), if_neg (by decide : ¬('{' : Char) = '['),
            if_pos rfl]
          have hkey : dumpStr k ++ ':' :: ' ' :: (dumpVal v2 ++ (dumpObj o2 ++ '}' :: rest)) =
              '"' :: (escapeList k.data ++ '"' :: (':' :: ' ' :: (dumpVal v2 ++ (dumpObj o2 ++ '}' :: rest)))) := by
            simp [dumpStr]
          rw [hkey, skipWs_cons '"' _ (by decide)]
          rw [show headIs ('"' :: (escapeList k.data ++ '"' :: (':' :: ' ' ::
            (dumpVal v2 ++ (dumpObj o2 ++ '}' :: rest))))) '}' = false by simp [headIs]]
          simp only [Bool.false_eq_true, if_neg (by simp : ¬False)]
          rw [← hkey, ih3 k v2 o2 rest hb]
          simp
    · intro x a rest hb
      rw [parseElems]
      rw [ih1 x (dumpArr a ++ ']' :: rest) (by omega) (numStop_arrTail a rest)]
      cases a with
      | nil =>
        simp only [dumpArr, List.nil_append]
        rw [skipWs_cons ']' rest (by decide)]
        simp [parseElems]
      | cons y t =>
        have hNA : needFuelA (.cons y t) = 1 + needFuel y + needFuelA t := rfl
        have hby : needFuel y + needFuelA t + 1 ≤ f := by rw [hNA] at hb; omega
        simp only [dumpArr, List.cons_append, List.append_assoc]
        rw [skipWs_cons ',' _ (by decide)]
        simp only [if_pos rfl]
        rw [parseElems_ws, ih2 y t rest hby]
        simp
    · intro k v o rest hb
      rw [parseFields]
      have hkey : dumpStr k ++ ':' :: ' ' :: (dumpVal v ++ (dumpObj o ++ '}' :: rest)) =
          '"' :: (escapeList k.data ++ '"' :: (':' :: ' ' :: (dumpVal v ++ (dumpObj o ++ '}' :: rest)))) := by
        simp [dumpStr]
      have hklen : k.data.length <
          (escapeList k.data ++ '"' :: (':' :: ' ' :: (dumpVal v ++ (dumpObj o ++ '}' :: rest)))).length + 1 := by
        have := escapeList_length k.data
        simp only [List.length_append, List.length_cons]
        omega
      rw [hkey, skipWs_cons '"' _ (by decide)]
      simp only [if_pos rfl]
      rw [parseStrAux_escape k.data _ _ hklen]
      have H1 := ih1 v (dumpObj o ++ '}' :: rest) (by omega) (numStop_objTail o rest)
      simp only [skipWs_cons ':' (' ' :: (dumpVal v ++ (dumpObj o ++ '}' :: rest))) (by decide),
        if_pos rfl, parseVal_ws, H1]
      have hmk : String.mk k.data = k := by cases k; rfl
      cases o with
      | nil =>
        simp [dumpObj, skipWs_cons, isWsChar, hmk]
      | cons k2 v2 t =>
        have hNO : needFuelO (.cons k2 v2 t) = 1 + needFuel v2 + needFuelO t := rfl
        have hbo : needFuel v2 + needFuelO t + 1 ≤ f := by rw [hNO] at hb; omega
        have H3 := ih3 k2 v2 t rest hbo
        simp [dumpObj, skipWs_cons, isWsChar, parseFields_ws, H3, hmk]

/-! ## Fuel bound: the length-based fuel of jsonLoadsChars is sufficient -/

mutual
theorem needFuel_le_len : ∀ (v : Json), needFuel v ≤ (dumpVal v).length
  | .null => by simp [needFuel, dumpVal, litNull]
  | .bool b => by cases b <;> simp [needFuel, dumpVal, litTrue, litFalse]
  | .num i => by
    obtain ⟨c, t, hct, _⟩ := intChars_head i
    simp only [needFuel, dumpVal, hct, List.length_cons]
    omega
  | .str s => by simp [needFuel, dumpVal, dumpStr]
  | .arr .nil => by simp [needFuel, dumpVal]
  | .arr (.cons x a) => by
    have h1 := needFuel_le_len x
    have h2 := needFuelA_le_len a
    simp only [needFuel, dumpVal, List.length_cons, List.length_append]
    omega
  | .obj .nil => by simp [needFuel, dumpVal]
  | .obj (.cons k v o) => by
    have h1 := needFuel_le_len v
    have h2 := needFuelO_le_len o
    simp only [needFuel, dumpVal, dumpStr, List.length_cons, List.length_append]
    omega

theorem needFuelA_le_len : ∀ (a : JsonArr), needFuelA a ≤ (dumpArr a).length
  | .nil => by simp [needFuelA, dumpArr]
  | .cons y t => by
    have h1 := needFuel_le_len y
    have h2 := needFuelA_le_len t
    simp only [needFuelA, dumpArr, List.length_cons, List.length_append]
    omega

theorem needFuelO_le_len : ∀ (o : JsonObj), needFuelO o ≤ (dumpObj o).length
  | .nil => by simp [needFuelO, dumpObj]
  | .cons k v t => by
    have h1 := needFuel_le_len v
    have h2 := needFuelO_le_len t
    simp only [needFuelO, dumpObj, dumpStr, List.length_cons, List.length_append]
    omega
end

theorem jsonLoadsChars_dumpVal (v : Json) : jsonLoadsChars (dumpVal v) = some v := by
  have h := (rtAll ((dumpVal v).length + 1)).1 v [] (by have := needFuel_le_len v; omega) trivial
  rw [List.append_nil] at h
  rw [jsonLoadsChars, h]
  simp [skipWs]

/-! ## Python strip leaves a serialized line intact -/

theorem pyIsSpace_false (c : Char) (h : 34 ≤ c.toNat) : pyIsSpace c = false := by
  simp only [pyIsSpace, Bool.or_eq_false_iff, Bool.and_eq_false_iff, decide_eq_false_iff_not]
  exact ⟨by omega, Or.inr (by omega)⟩

theorem dropLeadWs_cons (c : Char) (l : List Char) (h : pyIsSpace c = false) :
    dropLeadWs (c :: l) = c :: l := by
  simp [dropLeadWs, h]

theorem natChars_mem (n : Nat) : ∀ c ∈ natChars n, 48 ≤ c.toNat ∧ c.toNat ≤ 57 := by
  obtain ⟨d0, ds, hform, hlt, _, _⟩ := natChars_spec n
  intro c hcaux
  rw [hform] at hcaux
  obtain ⟨d, hd, rfl⟩ := List.mem_map.mp hcaux
  have : d < 10 := hlt d hd
  rw [digitChar_toNat d this]
  omega

theorem intChars_mem (i : Int) : ∀ c ∈ intChars i, 45 ≤ c.toNat ∧ c.toNat ≤ 57 := by
  intro c hcm
  by_cases hi : i < 0
  · rw [show intChars i = '-' :: natChars i.natAbs by simp [intChars, hi]] at hcm
    rcases List.mem_cons.mp hcm with rfl | hcm2
    · constructor <;> decide
    · have := natChars_mem i.natAbs c hcm2
      omega
  · rw [show intChars i = natChars i.natAbs by simp [intChars, hi]] at hcm
    have := natChars_mem i.natAbs c hcm
    omega

theorem dumpVal_last (v : Json) : ∃ c t, dumpVal v = t ++ [c] ∧ pyIsSpace c = false := by
  cases v with
  | null => exact ⟨'l', ['n', 'u', 'l'], rfl, by decide⟩
  | bool b => cases b with
    | true => exact ⟨'e', ['t', 'r', 'u'], rfl, by decide⟩
    | false => exact ⟨'e', ['f', 'a', 'l', 's'], rfl, by decide⟩
  | num i =>
    have hne : intChars i ≠ [] := by
      obtain ⟨c, t, hct, _⟩ := intChars_head i
      rw [hct]
      simp
    refine ⟨(intChars i).getLast hne, (intChars i).dropLast, ?_, ?_⟩
    · rw [show dumpVal (.num i) = intChars i from rfl]
      exact (List.dropLast_append_getLast hne).symm
    · have hmem := intChars_mem i ((intChars i).getLast hne) (List.getLast_mem hne)
      exact pyIsSpace_false _ (by omega)
  | str s => exact ⟨'"', '"' :: escapeList s.data, rfl, by decide⟩
  | arr a => cases a with
    | nil => exact ⟨']', ['['], rfl, by decide⟩
    | cons x tl =>
      refine ⟨']', ('[' :: dumpVal x) ++ dumpArr tl, ?_, by decide⟩
      rw [dumpVal]
  | obj o => cases o with
    | nil => exact ⟨'}', ['{'], rfl, by decide⟩
    | cons k v tl =>
      refine ⟨'}', ('{' :: dumpStr k) ++ ':' :: ' ' :: dumpVal v ++ dumpObj tl, ?_, by decide⟩
      rw [dumpVal]

theorem pyStrip_dump_newline (v : Json) : pyStrip (dumpVal v ++ ['\n']) = dumpVal v := by
  obtain ⟨c, t, hct, hc⟩ := dumpVal_head v
  obtain ⟨cl, tl, hlast, hcl⟩ := dumpVal_last v
  have hcns : pyIsSpace c = false :=
    pyIsSpace_false c (by rcases hc with h|h|h|h|h|h|h|h <;> omega)
  have step1 : dropLeadWs (dumpVal v ++ ['\n']) = dumpVal v ++ ['\n'] := by
    rw [hct, List.cons_append]
    exact dropLeadWs_cons c _ hcns
  have step2 : (dumpVal v ++ ['\n']).reverse = '\n' :: (dumpVal v).reverse := by
    simp
  have step4 : (dumpVal v).reverse = cl :: tl.reverse := by
    rw [hlast]
    simp
  rw [pyStrip, step1, step2]
  rw [show dropLeadWs ('\n' :: (dumpVal v).reverse) = dropLeadWs ((dumpVal v).reverse) by
    simp [dropLeadWs, pyIsSpace]]
  rw [step4, dropLeadWs_cons cl _ hcl, ← step4]
  simp

/-! ## The codec round trip -/

theorem decode_encode (v : Json) : decodeLine (encodeMsg v) = some v := by
  rw [decodeLine, encodeMsg]
  rw [show (String.mk (dumpVal v ++ ['\n'])).data = dumpVal v ++ ['\n'] from rfl]
  rw [pyStrip_dump_newline, jsonLoadsChars_dumpVal]

/-! ## The claims -/

/-- Claim C7: the codec round-trips: for every JSON message m (integer or
string ids, arbitrarily nested arrays and objects), decoding the encoded
single-line wire form — json.loads of the stripped line, applied to
json.dumps(m) plus the newline terminator — yields m again. -/
theorem C7_codec_roundtrip (m : Json) : decodeLine (encodeMsg m) = some m :=
  decode_encode m

/-- Claim C8: the handshake request built by connect() has method
"initialize", params.protocolVersion "2024-11-05", capabilities exactly
roots.listChanged=true plus empty sampling, and clientInfo with name and
version; its wire form is a single line whose only newline is the final
terminator. -/
theorem C8_handshake_payload :
    getField initRequest "method" = some (.str "initialize") ∧
    (getField initRequest "params").bind (fun p => getField p "protocolVersion")
      = some (.str "2024-11-05") ∧
    (getField initRequest "params").bind (fun p => getField p "capabilities")
      = some (.obj (.cons "roots" (.obj (.cons "listChanged" (.bool true) .nil))
          (.cons "sampling" (.obj .nil) .nil))) ∧
    (getField initRequest "params").bind (fun p => getField p "clientInfo")
      = some (.obj (.cons "name" (.str "fastapi-mcp-bridge")
          (.cons "version" (.str "1.0.0") .nil))) ∧
    (encodeMsg initRequest).data.count '\n' = 1 ∧
    (encodeMsg initRequest).data.getLast? = some '\n' :=
  ⟨rfl, rfl, rfl, rfl, rfl, rfl⟩

/-- Claim C9: when no child process exists, send_request raises the
not-connected error without touching any stream (the state, including all
recorded pipe traffic, is unchanged), and each bridge endpoint returns a
success=false body instead of crashing. -/
theorem C9_not_connected (st : ClientState) (h : st.process = none) :
    (∀ req : Json, send_request st req = (.error .notConnected, st)) ∧
    ((list_tools st).1.2.success = false ∧ (list_tools st).2 = st) ∧
    (∀ name args, (call_tool st name args).1.2.success = false ∧
      (call_tool st name args).2 = st) ∧
    (∀ m p, (send_mcp_request st m p).1.2.success = false ∧
      (send_mcp_request st m p).2 = st) := by
  refine ⟨?_, ⟨?_, ?_⟩, ?_, ?_⟩
  · intro req
    simp [send_request, h]
  · simp [list_tools, bridge_call, bridge_body, send_request, h]
  · simp [list_tools, bridge_call, bridge_body, send_request, h]
  · intro name args
    simp [call_tool, bridge_call, bridge_body, send_request, h]
  · intro m p
    simp [send_mcp_request, bridge_call, bridge_body, send_request, h]

/-- Witness for C9 at the startup state with no child process. -/
theorem C9_not_connected_witness :
    send_request ⟨none, false⟩ toolsListRequest = (.error .notConnected, ⟨none, false⟩) ∧
    (list_tools ⟨none, false⟩).1.2.success = false :=
  ⟨(C9_not_connected ⟨none, false⟩ rfl).1 toolsListRequest,
   (C9_not_connected ⟨none, false⟩ rfl).2.1.1⟩

/-- Claim C10: the health endpoint reports the constant status "healthy"
in every reachable state; only the separate mcp_connected field mirrors
the connected flag. -/
theorem C10_health_constant (st : ClientState) (cfg : Bool) :
    (health_check st cfg).status = "healthy" ∧
    (health_check st cfg).mcp_connected = st.connected :=
  ⟨rfl, rfl⟩

/-- Claim C1, against the code: request ids are not monotonically
increasing and not unique. After a successful connect (id 1) and two GET
/tools calls, the lines written to the child carry ids 1, 2, 2: the two
tools/list requests reuse the hard-coded id 2, contradicting global
uniqueness and strict monotonicity. -/
theorem C1_ids_fixed_per_endpoint :
    writtenIds demoAfterTwoListTools = [some (.num 1), some (.num 2), some (.num 2)] ∧
    demoAfterTwoListTools.connected = true ∧
    getField toolsListRequest "id" = some (.num 2) ∧
    getField (callToolRequest "t" (.obj .nil)) "id" = some (.num 3) ∧
    getField (rawRequest "m" none) "id" = some (.num 4) :=
  ⟨rfl, rfl, rfl, rfl, rfl⟩

/-- Claim C5, against the code: every bridge endpoint answers with HTTP
status 200, even for a remote error response: the endpoint's own
HTTPException(500) raise is caught by its catch-all except handler and
converted to a 200 body with success=false. -/
theorem C5_always_http_200 :
    (∀ (st : ClientState) (req : Json), (bridge_call st req).1.1 = 200) ∧
    (list_tools remoteErrState).1.1 = 200 ∧
    (list_tools remoteErrState).1.2.success = false :=
  ⟨fun st req => by rw [bridge_call]; split <;> rfl, rfl, rfl⟩

/-- Counterexample to claim C2: with request id 5 outstanding and the
child answering with id 99, send_request returns the id-99 response as the
call's result and the session still reports connected: the mismatched
response is accepted, with no transition to disconnected and no error. -/
theorem C2_counterexample :
    getField (reqWithId 5) "id" = some (.num 5) ∧
    getField (respWithId 99) "id" = some (.num 99) ∧
    send_request mismatchState (reqWithId 5) =
      (.ok (respWithId 99), ⟨some ⟨true, [encodeMsg (reqWithId 5)], []⟩, true⟩) :=
  ⟨rfl, rfl, rfl⟩

/-- Claim C2 as amended: send_request performs no id check at all. Whatever
JSON value the next child line parses to — matching id or not — is returned
as the call's result, and the connected flag is left untouched. -/
theorem C2_no_id_check (st : ClientState) (p : ChildProc) (line : String)
    (pend : List String) (req j : Json) (hp : st.process = some p)
    (hopen : p.stdinOpen = true) (hq : p.stdoutPending = line :: pend)
    (hj : decodeLine line = some j) :
    send_request st req =
      (.ok j, ⟨some ⟨p.stdinOpen, p.stdinData ++ [encodeMsg req], pend⟩, st.connected⟩) ∧
    (send_request st req).2.connected = st.connected := by
  have h1 : send_request st req =
      (.ok j, ⟨some ⟨p.stdinOpen, p.stdinData ++ [encodeMsg req], pend⟩, st.connected⟩) := by
    simp [send_request, hp, hopen, hq, hj]
  exact ⟨h1, by rw [h1]⟩

/-- Witness for C2's amended claim at the concrete mismatched-id input. -/
theorem C2_no_id_check_witness :
    send_request mismatchState (reqWithId 5) =
      (.ok (respWithId 99), ⟨some ⟨true, [] ++ [encodeMsg (reqWithId 5)], []⟩, true⟩) ∧
    (send_request mismatchState (reqWithId 5)).2.connected = mismatchState.connected :=
  C2_no_id_check mismatchState ⟨true, [], [encodeMsg (respWithId 99)]⟩
    (encodeMsg (respWithId 99)) [] (reqWithId 5) (respWithId 99)
    rfl rfl rfl (decode_encode (respWithId 99))

/-- Counterexample to claim C3: when the child answers the initialize
request with an error response, connect() still succeeds and the session
becomes connected, instead of signaling HandshakeFailed and staying
disconnected. -/
theorem C3_counterexample :
    (getField errorResp "error").isSome = true ∧
    (connect ⟨none, false⟩ demoServers true [errorRespLine]).1 = .ok () ∧
    (connect ⟨none, false⟩ demoServers true [errorRespLine]).2.connected = true :=
  ⟨rfl, rfl, rfl⟩

/-- Claim C3 as amended: connect() becomes connected exactly when the
initialize exchange yields any parseable JSON line, error response or not
(the response value is discarded unexamined); only a malformed or absent
response makes connect() raise, leaving the session unconnected — though
the spawned process handle remains installed. -/
theorem C3_connect_behavior (line : String) (restOut : List String) (j : Json)
    (hj : decodeLine line = some j) :
    (connect ⟨none, false⟩ demoServers true (line :: restOut)).1 = .ok () ∧
    (connect ⟨none, false⟩ demoServers true (line :: restOut)).2.connected = true ∧
    (connect ⟨none, false⟩ demoServers true []).1 = .error (.sendErr .malformed) ∧
    (connect ⟨none, false⟩ demoServers true []).2.connected = false ∧
    (connect ⟨none, false⟩ demoServers true []).2.process.isSome = true := by
  refine ⟨?_, ?_, rfl, rfl, rfl⟩
  · simp [connect, demoServers, send_request, hj]
  · simp [connect, demoServers, send_request, hj]

/-- Witness for C3's amended claim: an error response still connects, an
empty stream does not. -/
theorem C3_connect_behavior_witness :
    (connect ⟨none, false⟩ demoServers true [errorRespLine]).1 = .ok () ∧
    (connect ⟨none, false⟩ demoServers true []).2.connected = false :=
  ⟨(C3_connect_behavior errorRespLine [] errorResp (decode_encode errorResp)).1,
   (C3_connect_behavior errorRespLine [] errorResp (decode_encode errorResp)).2.2.2.1⟩

/-- Counterexample to claim C4: a transport failure (child exited, read
returns end of stream) makes send_request raise, but the session still
reports connected afterwards: the connected flag is never cleared. -/
theorem C4_counterexample :
    (send_request eofState (reqWithId 5)).1 = .error .malformed ∧
    (send_request eofState (reqWithId 5)).2.connected = true :=
  ⟨rfl, rfl⟩

/-- Claim C4 as amended: every transport-level failure during a call
(write failure, end of stream, malformed line) is surfaced to the caller
as a raised error, never swallowed — but the connected flag is not
cleared: send_request leaves it exactly as it was. -/
theorem C4_surfaced_but_still_connected (st : ClientState) (req : Json) :
    ((send_request st req).2.connected = st.connected) ∧
    (∀ p, st.process = some p → p.stdinOpen = true → p.stdoutPending = [] →
      (send_request st req).1 = .error .malformed) ∧
    (∀ p, st.process = some p → p.stdinOpen = false →
      (send_request st req).1 = .error .writeFailed) ∧
    (∀ p line pend, st.process = some p → p.stdinOpen = true →
      p.stdoutPending = line :: pend → decodeLine line = none →
      (send_request st req).1 = .error .malformed) := by
  refine ⟨?_, ?_, ?_, ?_⟩
  · rcases hsp : st.process with _ | p
    · simp [send_request, hsp]
    · by_cases ho : p.stdinOpen = true
      · rcases hq : p.stdoutPending with _ | ⟨line, pend⟩
        · simp [send_request, hsp, ho, hq]
        · rcases hd : decodeLine line with _ | j
          · simp [send_request, hsp, ho, hq, hd]
          · simp [send_request, hsp, ho, hq, hd]
      · simp [send_request, hsp, ho]
  · intro p hsp ho hq
    simp [send_request, hsp, ho, hq]
  · intro p hsp ho
    simp [send_request, hsp, ho]
  · intro p line pend hsp ho hq hd
    simp [send_request, hsp, ho, hq, hd]

/-- Witness for C4's amended claim at the end-of-stream, closed-pipe and
malformed-line inputs. -/
theorem C4_surfaced_witness :
    (send_request eofState (reqWithId 5)).2.connected = eofState.connected ∧
    (send_request eofState (reqWithId 5)).1 = .error .malformed ∧
    (send_request closedPipeState (reqWithId 5)).1 = .error .writeFailed ∧
    (send_request malformedState (reqWithId 5)).1 = .error .malformed :=
  ⟨(C4_surfaced_but_still_connected eofState (reqWithId 5)).1,
   (C4_surfaced_but_still_connected eofState (reqWithId 5)).2.1 _ rfl rfl rfl,
   (C4_surfaced_but_still_connected closedPipeState (reqWithId 5)).2.2.1 _ rfl rfl,
   (C4_surfaced_but_still_connected malformedState (reqWithId 5)).2.2.2 _ "oops\n" [] rfl rfl rfl rfl⟩

/-- Counterexample to claim C6: under the interleaved schedule
write-A, write-B, child, child, read-B, read-A, caller B (request id 3)
completes first and receives the response carrying id 2 — the response
belonging to caller A's tools/list request. The second call neither
blocked until the first completed nor failed with SessionBusy, and a
caller received the other call's response. -/
theorem C6_interleaving_counterexample :
    (runSys (initSys toolsListRequest (callToolRequest "x" (.obj .nil)))
      [.writeA, .writeB, .child, .child, .readB, .readA]).callerB.received
      = some (some (echoResp toolsListRequest)) ∧
    getField (callToolRequest "x" (.obj .nil)) "id" = some (.num 3) ∧
    getField (echoResp toolsListRequest) "id" = some (.num 2) :=
  ⟨rfl, rfl, rfl⟩

/-- Claim C6 as amended: the code has no single-flight guard — no blocking
and no SessionBusy — so correct request/response pairing holds only when
the two calls are fully serialized: under a serial schedule each caller
receives the response to its own request, in FIFO order. -/
theorem C6_serial_fifo (ra rb : Json) :
    (runSys (initSys ra rb) [.writeA, .child, .readA, .writeB, .child, .readB]).callerA.received
      = some (some (echoResp ra)) ∧
    (runSys (initSys ra rb) [.writeA, .child, .readA, .writeB, .child, .readB]).callerB.received
      = some (some (echoResp rb)) := by
  constructor <;>
    simp [runSys, initSys, stepSys, childRespond, decode_encode, echoResp]

end MCPBridge
